import Mathlib

/-!
# Containers and private IP mode client (`mongodbatlas/containers.go`)

A shallow embedding of the resource client in `containers.go`.

* Go `string` is a sequence of bytes (`GoString`); string literals of the source are the
  UTF-8 bytes of their text (`lit`).
* The request builder (`sling`) is an external collaborator.  It is embedded as a record of
  the builder calls the methods make: the HTTP method, the sequence of `Path` extensions and
  the value handed to `BodyJSON`.  `Receive` sends the recorded request once, appends it to
  the log of requests sent, and leaves the decoded success value, the decoded error payload,
  the raw response handle and the transport error as the HTTP exchange (a parameter of every
  operation) determines them.
* `encoding/json` is embedded at the level of JSON values, driven by the struct tags of
  the source: an object is the sequence of its members, a JSON string is a sequence of
  Unicode scalar values.  Writing a Go string coerces it to valid UTF-8, reading a JSON
  string gives its UTF-8 bytes.
* `relevantError` and `APIError` are defined elsewhere in the package and are modelled from
  the specification.
-/

namespace Mongodbatlas

/-! ## Go strings -/

/-- One byte of a Go string. -/
abbrev Byte := Fin 256

/-- A Go `string`: an immutable sequence of bytes, not necessarily valid UTF-8. -/
abbrev GoString := List Byte

/-- A Go slice, read as the sequence of its elements (a nil slice is the empty sequence). -/
abbrev Slice (α : Type) := List α

/-- The byte with value `n` (reduced modulo 256). -/
def byte (n : Nat) : Byte := ⟨n % 256, Nat.mod_lt _ (by decide)⟩

/-- Go `utf8.AppendRune` on a Unicode scalar value: its UTF-8 encoding. The shifts and masks
of the Go source are written as divisions and remainders by powers of two. -/
def EncodeRune (c : Char) : GoString :=
  let r := c.toNat
  if r < 0x80 then [byte r]
  else if r < 0x800 then [byte (0xC0 + r / 64), byte (0x80 + r % 64)]
  else if r < 0x10000 then
    [byte (0xE0 + r / 4096), byte (0x80 + r / 64 % 64), byte (0x80 + r % 64)]
  else
    [byte (0xF0 + r / 262144), byte (0x80 + r / 4096 % 64), byte (0x80 + r / 64 % 64),
      byte (0x80 + r % 64)]

/-- The bytes of a sequence of Unicode scalar values: their UTF-8 encoding. -/
def encodeChars : List Char → GoString
  | [] => []
  | c :: cs => EncodeRune c ++ encodeChars cs

/-- A string literal of the Go source, as the Go string it denotes. -/
def lit (s : String) : GoString := encodeChars s.data

/-- Go `fmt.Sprintf` for the formats of this file, whose only verb is `%s`, with string
operands, as many as there are verbs: every `%s` is replaced by the next operand, byte for
byte (the operand is not scanned for verbs), and every other byte of the format is copied.
A `%s` with no operand left prints `%!s(MISSING)`. -/
def Sprintf : GoString → List GoString → GoString
  | [], _ => []
  | [b], _ => [b]
  | b :: b1 :: rest, args =>
    if b = byte 37 ∧ b1 = byte 115 then
      match args with
      | [] => lit "%!s(MISSING)" ++ Sprintf rest []
      | a :: args1 => a ++ Sprintf rest args1
    else b :: Sprintf (b1 :: rest) args

/-! ## UTF-8, as `unicode/utf8` and `encoding/json` handle it -/

/-- Go `utf8.RuneError`, the replacement character U+FFFD. -/
def RuneError : Char := Char.ofNat 0xFFFD

/-- Go `utf8.first` with `utf8.acceptRanges`, for a non-ASCII leading byte: the length of the
sequence and the lowest and highest second byte accepted; `none` for an illegal leading
byte. -/
def first (s0 : Nat) : Option (Nat × Nat × Nat) :=
  if s0 < 0xC2 then none
  else if s0 < 0xE0 then some (2, 0x80, 0xBF)
  else if s0 = 0xE0 then some (3, 0xA0, 0xBF)
  else if s0 = 0xED then some (3, 0x80, 0x9F)
  else if s0 < 0xF0 then some (3, 0x80, 0xBF)
  else if s0 = 0xF0 then some (4, 0x90, 0xBF)
  else if s0 < 0xF4 then some (4, 0x80, 0xBF)
  else if s0 = 0xF4 then some (4, 0x80, 0x8F)
  else none

/-- Go `utf8.DecodeRuneInString`: the first rune of the string and its width in bytes;
`(RuneError, 0)` for the empty string and `(RuneError, 1)` for an invalid encoding. The
masks and shifts of the Go source are written as remainders and products; the branches for
a string that ends early are not reached once the length has been checked. -/
def DecodeRuneInString (s : GoString) : Char × Nat :=
  match s with
  | [] => (RuneError, 0)
  | s0 :: t =>
    if s0.val < 0x80 then (Char.ofNat s0.val, 1)
    else
      match first s0.val with
      | none => (RuneError, 1)
      | some (sz, lo, hi) =>
        if s.length < sz then (RuneError, 1)
        else
          match t with
          | [] => (RuneError, 1)
          | s1 :: t1 =>
            if s1.val < lo ∨ hi < s1.val then (RuneError, 1)
            else if sz ≤ 2 then (Char.ofNat (s0.val % 32 * 64 + s1.val % 64), 2)
            else
              match t1 with
              | [] => (RuneError, 1)
              | s2 :: t2 =>
                if s2.val < 0x80 ∨ 0xBF < s2.val then (RuneError, 1)
                else if sz ≤ 3 then
                  (Char.ofNat (s0.val % 16 * 4096 + s1.val % 64 * 64 + s2.val % 64), 3)
                else
                  match t2 with
                  | [] => (RuneError, 1)
                  | s3 :: _ =>
                    if s3.val < 0x80 ∨ 0xBF < s3.val then (RuneError, 1)
                    else
                      (Char.ofNat (s0.val % 8 * 262144 + s1.val % 64 * 4096
                        + s2.val % 64 * 64 + s3.val % 64), 4)

/-- The loop of Go `utf8.ValidString`, with the number of iterations left as fuel. Every
iteration consumes at least one byte, so the length of the string is fuel enough
(`validLoop_fuel`). -/
def validLoop : Nat → GoString → Bool
  | 0, s => s.isEmpty
  | fuel + 1, s =>
    match s with
    | [] => true
    | si :: t =>
      if si.val < 0x80 then validLoop fuel t
      else
        match first si.val with
        | none => false
        | some (size, lo, hi) =>
          if s.length < size then false
          else
            match t with
            | [] => false
            | c1 :: t1 =>
              if c1.val < lo ∨ hi < c1.val then false
              else if size = 2 then validLoop fuel t1
              else
                match t1 with
                | [] => false
                | c2 :: t2 =>
                  if c2.val < 0x80 ∨ 0xBF < c2.val then false
                  else if size = 3 then validLoop fuel t2
                  else
                    match t2 with
                    | [] => false
                    | c3 :: t3 =>
                      if c3.val < 0x80 ∨ 0xBF < c3.val then false
                      else validLoop fuel t3

/-- Go `utf8.ValidString`: whether the string consists entirely of valid UTF-8-encoded
runes. The loop runs at most once per byte. -/
def ValidString (s : GoString) : Bool := validLoop s.length s

/-- The loop of the string encoder of `encoding/json`, read at the level of the characters
of the JSON string it writes: ASCII bytes stand for themselves, a valid multi-byte sequence
for its rune, and every byte that does not start a valid sequence for U+FFFD. Every
iteration consumes at least one byte, so the length of the string is fuel enough
(`jsonCharsLoop_fuel`). -/
def jsonCharsLoop : Nat → GoString → List Char
  | 0, _ => []
  | fuel + 1, s =>
    match s with
    | [] => []
    | b :: t =>
      if b.val < 0x80 then Char.ofNat b.val :: jsonCharsLoop fuel t
      else
        let d := DecodeRuneInString s
        if d.1 = RuneError ∧ d.2 = 1 then RuneError :: jsonCharsLoop fuel t
        else d.1 :: jsonCharsLoop fuel (s.drop d.2)

/-- The JSON string that `encoding/json` writes for a Go string: the string coerced to
valid UTF-8. The loop runs at most once per byte. -/
def jsonString (s : GoString) : String := String.mk (jsonCharsLoop s.length s)

/-- The Go string that `encoding/json` reads from a JSON string: its UTF-8 bytes. -/
def goString (s : String) : GoString := encodeChars s.data

/-! ## JSON values and the struct codec of `encoding/json` -/

/-- A JSON value. A number is kept as its literal text. -/
inductive Json where
  | null
  | bool (b : Bool)
  | num (text : String)
  | str (s : String)
  | arr (items : List Json)
  | obj (members : List (String × Json))

/-- The keys of the members of a JSON object, in order; no keys for any other value. -/
def Json.keys : Json → List String
  | Json.obj members => members.map Prod.fst
  | _ => []

/-- A string field tagged `name,omitempty`: omitted when the string is empty. -/
def stringMember (name : String) (v : GoString) : List (String × Json) :=
  if v = [] then [] else [(name, Json.str (jsonString v))]

/-- A bool field tagged `name,omitempty`: omitted when the flag is false. -/
def boolMember (name : String) (v : Bool) : List (String × Json) :=
  if v = false then [] else [(name, Json.bool v)]

/-! ## Data model -/

/-- Container represents a Cloud Services Containers in MongoDB. -/
structure Container where
  ID : GoString
  ProviderName : GoString
  AtlasCidrBlock : GoString
  RegionName : GoString
  VpcID : GoString
  GcpProjectID : GoString
  NetworkName : GoString
  Provisioned : Bool
  deriving DecidableEq, Repr

/-- The zero value of `Container`. -/
instance : Inhabited Container := ⟨⟨[], [], [], [], [], [], [], false⟩⟩

/-- PrivateIPMode: the project-level flag. -/
structure PrivateIPMode where
  Enabled : Bool
  deriving DecidableEq, Repr

/-- The zero value of `PrivateIPMode`. -/
instance : Inhabited PrivateIPMode := ⟨⟨false⟩⟩

/-- The response from `ContainerService.List`; Go `int` is a 64-bit integer, no arithmetic
is done on it here. -/
structure containerListResponse where
  Results : Slice Container
  TotalCount : Int
  deriving DecidableEq, Repr

/-- The zero value of `containerListResponse`. -/
instance : Inhabited containerListResponse := ⟨⟨[], 0⟩⟩

/-! ## The JSON codec of the data model, from the struct tags -/

/-- Go `json.Marshal` of a `Container`: the fields in declaration order under the names of
their tags, each omitted when empty. -/
def Container.Marshal (c : Container) : Json :=
  Json.obj
    (stringMember "id" c.ID ++ stringMember "providerName" c.ProviderName
      ++ stringMember "atlasCidrBlock" c.AtlasCidrBlock
      ++ stringMember "regionName" c.RegionName ++ stringMember "vpcId" c.VpcID
      ++ stringMember "gcpProjectId" c.GcpProjectID
      ++ stringMember "networkName" c.NetworkName
      ++ boolMember "provisioned" c.Provisioned)

/-- Go `json.Marshal` of a `PrivateIPMode`. -/
def PrivateIPMode.Marshal (v : PrivateIPMode) : Json :=
  Json.obj (boolMember "enabled" v.Enabled)

/-- The fields of `Container`, named as in the source. -/
inductive ContainerField where
  | ID | ProviderName | AtlasCidrBlock | RegionName | VpcID | GcpProjectID | NetworkName
  | Provisioned
  deriving DecidableEq, Repr

/-- The JSON name in the tag of a field. -/
def ContainerField.tag : ContainerField → String
  | ContainerField.ID => "id"
  | ContainerField.ProviderName => "providerName"
  | ContainerField.AtlasCidrBlock => "atlasCidrBlock"
  | ContainerField.RegionName => "regionName"
  | ContainerField.VpcID => "vpcId"
  | ContainerField.GcpProjectID => "gcpProjectId"
  | ContainerField.NetworkName => "networkName"
  | ContainerField.Provisioned => "provisioned"

/-- The fields of `Container` in declaration order. -/
def containerFields : List ContainerField :=
  [ContainerField.ID, ContainerField.ProviderName, ContainerField.AtlasCidrBlock,
    ContainerField.RegionName, ContainerField.VpcID, ContainerField.GcpProjectID,
    ContainerField.NetworkName, ContainerField.Provisioned]

/-- The case folding of one rune of a key in `encoding/json`: the least rune of its simple
case-folding orbit. ASCII letters fold to upper case; the Kelvin sign and the long s are the
only other runes whose orbit holds an ASCII letter. Every other rune is left as it is, which
is as good for comparing a key with the ASCII names of the tags. -/
def foldRune (r : Char) : Char :=
  if 'a' ≤ r ∧ r ≤ 'z' then Char.ofNat (r.toNat - 32)
  else if r = Char.ofNat 0x212A then 'K'
  else if r = Char.ofNat 0x17F then 'S'
  else r

/-- The folded form of a key. -/
def foldName (s : String) : String := String.mk (s.data.map foldRune)

/-- The field an object key selects: the field with exactly that name, else the field whose
name matches the key up to case folding. -/
def lookupField (key : String) : Option ContainerField :=
  match containerFields.find? (fun f => f.tag = key) with
  | some f => some f
  | none => containerFields.find? (fun f => foldName f.tag = foldName key)

/-- Go `json.UnmarshalTypeError`: a JSON value of kind `Value` was not appropriate for the
field named `Field` (empty for the value as a whole). -/
structure UnmarshalTypeError where
  Value : String
  Field : String
  deriving DecidableEq, Repr

/-- Stores a string into a string field of a `Container`; `none` for the bool field. -/
def Container.setString (c : Container) (f : ContainerField) (v : GoString) :
    Option Container :=
  match f with
  | ContainerField.ID => some { c with ID := v }
  | ContainerField.ProviderName => some { c with ProviderName := v }
  | ContainerField.AtlasCidrBlock => some { c with AtlasCidrBlock := v }
  | ContainerField.RegionName => some { c with RegionName := v }
  | ContainerField.VpcID => some { c with VpcID := v }
  | ContainerField.GcpProjectID => some { c with GcpProjectID := v }
  | ContainerField.NetworkName => some { c with NetworkName := v }
  | ContainerField.Provisioned => none

/-- Stores a bool into the bool field of a `Container`; `none` for a string field. -/
def Container.setBool (c : Container) (f : ContainerField) (v : Bool) : Option Container :=
  match f with
  | ContainerField.Provisioned => some { c with Provisioned := v }
  | _ => none

/-- Decoding of one member of a JSON object into a `Container`: a key that selects no field
is ignored, null leaves the field as it is, a value of the wrong kind leaves the field as it
is and reports a type error. -/
def decodeMember (c : Container) (key : String) (v : Json) :
    Container × Option UnmarshalTypeError :=
  match lookupField key with
  | none => (c, none)
  | some f =>
    match v with
    | Json.null => (c, none)
    | Json.str s =>
      match c.setString f (goString s) with
      | some c1 => (c1, none)
      | none => (c, some ⟨"string", f.tag⟩)
    | Json.bool b =>
      match c.setBool f b with
      | some c1 => (c1, none)
      | none => (c, some ⟨"bool", f.tag⟩)
    | Json.num _ => (c, some ⟨"number", f.tag⟩)
    | Json.arr _ => (c, some ⟨"array", f.tag⟩)
    | Json.obj _ => (c, some ⟨"object", f.tag⟩)

/-- Decoding of the members of a JSON object in order; the error kept is the first one. -/
def decodeMembers : List (String × Json) → Container →
    Container × Option UnmarshalTypeError
  | [], c => (c, none)
  | (key, v) :: rest, c =>
    let r := decodeMember c key v
    let r2 := decodeMembers rest r.1
    (r2.1, match r.2 with
      | some e => some e
      | none => r2.2)

/-- Go `json.Unmarshal` of a JSON value into the `Container` that `v` points to: the
container afterwards and the error returned, if any. -/
def Container.Unmarshal (data : Json) (v : Container) : Container × Option UnmarshalTypeError :=
  match data with
  | Json.null => (v, none)
  | Json.obj members => decodeMembers members v
  | Json.bool _ => (v, some ⟨"bool", ""⟩)
  | Json.num _ => (v, some ⟨"number", ""⟩)
  | Json.str _ => (v, some ⟨"string", ""⟩)
  | Json.arr _ => (v, some ⟨"array", ""⟩)

/-! ## Errors -/

/-- A transport-level failure of the HTTP exchange (building the request, connectivity,
decoding), identified by its message. It stands for a non-nil Go `error` returned by the
request builder. -/
structure TransportError where
  msg : String
  deriving DecidableEq, Repr

/-- Modelled from the spec: the type `APIError`, which is declared outside `containers.go`.
It is the decoded shape of a non-success response, carrying the status, code and message
fields the backend returns. -/
structure APIError where
  Status : Int
  Code : GoString
  Message : GoString
  deriving DecidableEq, Repr

/-- The zero value of `APIError`. -/
instance : Inhabited APIError := ⟨⟨0, [], []⟩⟩

/-- A non-nil value of the Go interface `error` as the methods of this file can return it:
either the transport error or an error built from the decoded error payload. A nil `error`
is `none` of `Option GoError`. -/
inductive GoError where
  | transport (e : TransportError)
  | api (e : APIError)
  deriving DecidableEq, Repr

/-- Modelled from the spec: the helper `relevantError`, which is defined outside
`containers.go`: take the transport error if present; otherwise, if the error payload is
non-empty/non-zero, construct an error from it; otherwise no error. -/
def relevantError (httpError : Option TransportError) (apiError : APIError) : Option GoError :=
  match httpError with
  | some e => some (GoError.transport e)
  | none => if apiError = default then none else some (GoError.api apiError)

/-! ## The request builder -/

/-- The HTTP methods the builder is asked for. -/
inductive Method where
  | GET | POST | PATCH | DELETE
  deriving DecidableEq, Repr

/-- The value handed to `BodyJSON`: a `*Container` (`none` is the nil pointer) or a
`PrivateIPMode`. -/
inductive Payload where
  | container (p : Option Container)
  | privateIPMode (v : PrivateIPMode)
  deriving DecidableEq, Repr

/-- Go `json.Marshal` of the value handed to `BodyJSON`: the body on the wire. A nil
pointer is written as `null`. -/
def Payload.Marshal : Payload → Json
  | Payload.container none => Json.null
  | Payload.container (some c) => c.Marshal
  | Payload.privateIPMode v => v.Marshal

/-- The raw response handle `*http.Response`, identified by its status code. -/
structure Response where
  StatusCode : Nat
  deriving DecidableEq, Repr

/-- The request builder: the method, the `Path` extensions applied so far (oldest first) and
the JSON body provider, if one was set. -/
structure Sling where
  method : Method
  paths : List GoString
  body : Option Payload
  deriving DecidableEq, Repr

/-- A request as the builder sends it: the same three components. -/
structure HttpRequest where
  method : Method
  paths : List GoString
  body : Option Payload
  deriving DecidableEq, Repr

/-- The JSON body of a request on the wire, if it has one. -/
def HttpRequest.wireBody (r : HttpRequest) : Option Json := r.body.map Payload.Marshal

/-- What `Receive(successV, failureV)` leaves behind: the values `successV` and `failureV`
point to after decoding, the raw response handle and the transport error. -/
structure Received (α : Type) where
  successV : α
  failureV : APIError
  resp : Option Response
  err : Option TransportError

/-- The HTTP exchange behind the builder: given the request and the values `successV` and
`failureV` point to before the call, what `Receive` leaves behind. -/
abbrev Exchange (α : Type) := HttpRequest → α → APIError → Received α

/-- Builder `New`: a copy of the builder. -/
def Sling.New (s : Sling) : Sling := s

/-- Builder `Path`: extends the URL by a relative path. -/
def Sling.Path (s : Sling) (path : GoString) : Sling :=
  { s with paths := s.paths ++ [path] }

/-- Builder `Get`: method GET and a path extension. -/
def Sling.Get (s : Sling) (path : GoString) : Sling :=
  Sling.Path { s with method := Method.GET } path

/-- Builder `Post`: method POST and a path extension. -/
def Sling.Post (s : Sling) (path : GoString) : Sling :=
  Sling.Path { s with method := Method.POST } path

/-- Builder `Patch`: method PATCH and a path extension. -/
def Sling.Patch (s : Sling) (path : GoString) : Sling :=
  Sling.Path { s with method := Method.PATCH } path

/-- Builder `Delete`: method DELETE and a path extension. -/
def Sling.Delete (s : Sling) (path : GoString) : Sling :=
  Sling.Path { s with method := Method.DELETE } path

/-- Builder `BodyJSON`: sets the JSON body provider. -/
def Sling.BodyJSON (s : Sling) (bodyJSON : Payload) : Sling :=
  { s with body := some bodyJSON }

/-- The request a builder stands for. -/
def Sling.Request (s : Sling) : HttpRequest := ⟨s.method, s.paths, s.body⟩

/-- Builder `Receive`: sends the request once (it is appended to the log of requests sent)
and returns what the exchange leaves behind. -/
def Sling.Receive {α : Type} (s : Sling) (successV : α) (failureV : APIError)
    (http : Exchange α) (sent : Slice HttpRequest) : Received α × Slice HttpRequest :=
  (http s.Request successV failureV, sent ++ [s.Request])

/-! ## The services -/

/-- ContainerService provides methods for accessing the Containers API endpoints. -/
structure ContainerService where
  sling : Sling

/-- PrivateIPModeService provides the private IP mode endpoints. -/
structure PrivateIPModeService where
  sling : Sling

/-- Go `newContainerService`. -/
def newContainerService (sling : Sling) : ContainerService :=
  { sling := sling.Path (lit "groups/") }

/-- Go `newPrivateIPModeService`. -/
def newPrivateIPModeService (sling : Sling) : PrivateIPModeService :=
  { sling := sling.Path (lit "groups/") }

/-- List all containers for the specified group. Returns the Go result triple and the log of
requests sent. -/
def ContainerService.List (c : ContainerService) (gid : GoString) (providerName : GoString)
    (http : Exchange containerListResponse) (sent : Slice HttpRequest) :
    (Slice Container × Option Response × Option GoError) × Slice HttpRequest :=
  let response : containerListResponse := default
  let apiError : APIError := default
  let path := Sprintf (lit "%s/containers?providerName=%s") [gid, providerName]
  let r := (c.sling.New.Get path).Receive response apiError http sent
  ((r.1.successV.Results, r.1.resp, relevantError r.1.err r.1.failureV), r.2)

/-- Get a container in the specified group. -/
def ContainerService.Get (c : ContainerService) (gid : GoString) (id : GoString)
    (http : Exchange Container) (sent : Slice HttpRequest) :
    (Container × Option Response × Option GoError) × Slice HttpRequest :=
  let container : Container := default
  let apiError : APIError := default
  let path := Sprintf (lit "%s/containers/%s") [gid, id]
  let r := (c.sling.New.Get path).Receive container apiError http sent
  ((r.1.successV, r.1.resp, relevantError r.1.err r.1.failureV), r.2)

/-- Create a container in the specified group. -/
def ContainerService.Create (c : ContainerService) (gid : GoString)
    (containerParams : Option Container) (http : Exchange Container) (sent : Slice HttpRequest) :
    (Container × Option Response × Option GoError) × Slice HttpRequest :=
  let container : Container := default
  let apiError : APIError := default
  let path := Sprintf (lit "%s/containers") [gid]
  let r := ((c.sling.New.Post path).BodyJSON (Payload.container containerParams)).Receive
    container apiError http sent
  ((r.1.successV, r.1.resp, relevantError r.1.err r.1.failureV), r.2)

/-- Update a container in the specified group. -/
def ContainerService.Update (c : ContainerService) (gid : GoString) (id : GoString)
    (containerParams : Option Container) (http : Exchange Container) (sent : Slice HttpRequest) :
    (Container × Option Response × Option GoError) × Slice HttpRequest :=
  let container : Container := default
  let apiError : APIError := default
  let path := Sprintf (lit "%s/containers/%s") [gid, id]
  let r := ((c.sling.New.Patch path).BodyJSON (Payload.container containerParams)).Receive
    container apiError http sent
  ((r.1.successV, r.1.resp, relevantError r.1.err r.1.failureV), r.2)

/-- Delete a container in the specified group. -/
def ContainerService.Delete (c : ContainerService) (gid : GoString) (id : GoString)
    (http : Exchange Container) (sent : Slice HttpRequest) :
    (Option Response × Option GoError) × Slice HttpRequest :=
  let container : Container := default
  let apiError : APIError := default
  let path := Sprintf (lit "%s/containers/%s") [gid, id]
  let r := (c.sling.New.Delete path).Receive container apiError http sent
  ((r.1.resp, relevantError r.1.err r.1.failureV), r.2)

/-- EnablePrivateIPMode, as written in the source. -/
def PrivateIPModeService.EnablePrivateIPMode (p : PrivateIPModeService) (gid : GoString)
    (http : Exchange PrivateIPMode) (sent : Slice HttpRequest) :
    (Option Response × Option GoError) × Slice HttpRequest :=
  let privateIPMode : PrivateIPMode := default
  let apiError : APIError := default
  let path := Sprintf (lit "%s/privateIpMode") [gid]
  let params : PrivateIPMode := { Enabled := false }
  let r := ((p.sling.New.Patch path).BodyJSON (Payload.privateIPMode params)).Receive
    privateIPMode apiError http sent
  ((r.1.resp, relevantError r.1.err r.1.failureV), r.2)

/-- DisablePrivateIPMode, as written in the source. -/
def PrivateIPModeService.DisablePrivateIPMode (p : PrivateIPModeService) (gid : GoString)
    (http : Exchange PrivateIPMode) (sent : Slice HttpRequest) :
    (Option Response × Option GoError) × Slice HttpRequest :=
  let privateIPMode : PrivateIPMode := default
  let apiError : APIError := default
  let path := Sprintf (lit "%s/privateIpMode") [gid]
  let params : PrivateIPMode := { Enabled := false }
  let r := ((p.sling.New.Patch path).BodyJSON (Payload.privateIPMode params)).Receive
    privateIPMode apiError http sent
  ((r.1.resp, relevantError r.1.err r.1.failureV), r.2)

/-! ## Specification predicates and example values -/

/-- Whether every string field of a container is valid UTF-8. -/
def Container.ValidUTF8 (c : Container) : Bool :=
  ValidString c.ID && ValidString c.ProviderName && ValidString c.AtlasCidrBlock
    && ValidString c.RegionName && ValidString c.VpcID && ValidString c.GcpProjectID
    && ValidString c.NetworkName

/-- The container with every string field coerced to valid UTF-8 the way the JSON encoder
writes it and the decoder reads it back. -/
def Container.toValidUTF8 (c : Container) : Container :=
  { ID := goString (jsonString c.ID)
    ProviderName := goString (jsonString c.ProviderName)
    AtlasCidrBlock := goString (jsonString c.AtlasCidrBlock)
    RegionName := goString (jsonString c.RegionName)
    VpcID := goString (jsonString c.VpcID)
    GcpProjectID := goString (jsonString c.GcpProjectID)
    NetworkName := goString (jsonString c.NetworkName)
    Provisioned := c.Provisioned }

/-- The reconciliation rule in the words of the specification, as a relation between what
the HTTP call left behind and the error a method returns: the transport error if present;
otherwise, if the error payload is non-zero, an error built from it; otherwise no error. -/
def Reconciles {α : Type} (o : Received α) (err : Option GoError) : Prop :=
  (∀ e, o.err = some e → err = some (GoError.transport e))
  ∧ (o.err = none → o.failureV ≠ default → err = some (GoError.api o.failureV))
  ∧ (o.err = none → o.failureV = default → err = none)

/-- A builder with the default method, no path and no body. -/
def baseSling : Sling := ⟨Method.GET, [], none⟩

/-- An exchange that answers 200 and decodes nothing: both receivers stay as they were. -/
def idleExchange (α : Type) : Exchange α :=
  fun _ successV failureV => ⟨successV, failureV, some ⟨200⟩, none⟩

/-! ## Lemmas on UTF-8 -/

theorem toNat_ofNat_of_valid (n : Nat) (h : n < 0xD800 ∨ (0xDFFF < n ∧ n < 0x110000)) :
    (Char.ofNat n).toNat = n := by
  have hv : n.isValidChar := h
  unfold Char.ofNat
  rw [dif_pos hv]
  simp [Char.toNat, Char.ofNatAux, UInt32.toNat]

theorem byte_val_eq (b : Byte) (n : Nat) (h : n = b.val) : byte n = b := by
  apply Fin.ext
  have := b.isLt
  simp [byte]
  omega

theorem EncodeRune_one (s0 : Byte) (h0 : s0.val < 0x80) :
    EncodeRune (Char.ofNat s0.val) = [s0] := by
  have hn := toNat_ofNat_of_valid s0.val (by omega)
  unfold EncodeRune
  simp only [hn]
  rw [if_pos h0, byte_val_eq s0 _ rfl]

theorem EncodeRune_two (s0 s1 : Byte) (h0 : 0xC2 ≤ s0.val) (h0u : s0.val < 0xE0)
    (h1 : 0x80 ≤ s1.val) (h1u : s1.val ≤ 0xBF) :
    EncodeRune (Char.ofNat (s0.val % 32 * 64 + s1.val % 64)) = [s0, s1] := by
  have hn := toNat_ofNat_of_valid (s0.val % 32 * 64 + s1.val % 64) (by omega)
  unfold EncodeRune
  simp only [hn]
  rw [if_neg (by omega), if_pos (by omega), byte_val_eq s0 _ (by omega),
    byte_val_eq s1 _ (by omega)]

theorem EncodeRune_three (s0 s1 s2 : Byte) (h0 : 0xE0 ≤ s0.val) (h0u : s0.val < 0xF0)
    (h1 : 0x80 ≤ s1.val) (h1u : s1.val ≤ 0xBF) (hlo : s0.val = 0xE0 → 0xA0 ≤ s1.val)
    (hhi : s0.val = 0xED → s1.val ≤ 0x9F) (h2 : 0x80 ≤ s2.val) (h2u : s2.val ≤ 0xBF) :
    EncodeRune (Char.ofNat (s0.val % 16 * 4096 + s1.val % 64 * 64 + s2.val % 64))
      = [s0, s1, s2] := by
  have hn := toNat_ofNat_of_valid (s0.val % 16 * 4096 + s1.val % 64 * 64 + s2.val % 64)
    (by omega)
  unfold EncodeRune
  simp only [hn]
  rw [if_neg (by omega), if_neg (by omega), if_pos (by omega), byte_val_eq s0 _ (by omega),
    byte_val_eq s1 _ (by omega), byte_val_eq s2 _ (by omega)]

theorem EncodeRune_four (s0 s1 s2 s3 : Byte) (h0 : 0xF0 ≤ s0.val) (h0u : s0.val ≤ 0xF4)
    (h1 : 0x80 ≤ s1.val) (h1u : s1.val ≤ 0xBF) (hlo : s0.val = 0xF0 → 0x90 ≤ s1.val)
    (hhi : s0.val = 0xF4 → s1.val ≤ 0x8F) (h2 : 0x80 ≤ s2.val) (h2u : s2.val ≤ 0xBF)
    (h3 : 0x80 ≤ s3.val) (h3u : s3.val ≤ 0xBF) :
    EncodeRune (Char.ofNat (s0.val % 8 * 262144 + s1.val % 64 * 4096 + s2.val % 64 * 64
      + s3.val % 64)) = [s0, s1, s2, s3] := by
  have hn := toNat_ofNat_of_valid (s0.val % 8 * 262144 + s1.val % 64 * 4096
    + s2.val % 64 * 64 + s3.val % 64) (by omega)
  unfold EncodeRune
  simp only [hn]
  rw [if_neg (by omega), if_neg (by omega), if_neg (by omega), byte_val_eq s0 _ (by omega),
    byte_val_eq s1 _ (by omega), byte_val_eq s2 _ (by omega), byte_val_eq s3 _ (by omega)]

theorem first_spec (n sz lo hi : Nat) (h : first n = some (sz, lo, hi)) :
    (sz = 2 ∧ 0xC2 ≤ n ∧ n < 0xE0 ∧ lo = 0x80 ∧ hi = 0xBF)
    ∨ (sz = 3 ∧ 0xE0 ≤ n ∧ n < 0xF0 ∧ 0x80 ≤ lo ∧ hi ≤ 0xBF
        ∧ (n = 0xE0 → lo = 0xA0) ∧ (n = 0xED → hi = 0x9F))
    ∨ (sz = 4 ∧ 0xF0 ≤ n ∧ n ≤ 0xF4 ∧ 0x80 ≤ lo ∧ hi ≤ 0xBF
        ∧ (n = 0xF0 → lo = 0x90) ∧ (n = 0xF4 → hi = 0x8F)) := by
  unfold first at h
  split_ifs at h <;> simp only [Option.some.injEq, Prod.mk.injEq] at h <;> omega

theorem valid_step (fuel : Nat) (si : Byte) (t : GoString) (hA : ¬ si.val < 0x80)
    (h : validLoop (fuel + 1) (si :: t) = true) :
    ∃ c n, DecodeRuneInString (si :: t) = (c, n) ∧ 2 ≤ n ∧
      validLoop fuel ((si :: t).drop n) = true ∧
      EncodeRune c ++ (si :: t).drop n = si :: t := by
  simp only [validLoop, hA, if_false] at h
  simp only [DecodeRuneInString, hA, if_false]
  cases hf : first si.val with
  | none => simp [hf] at h
  | some p =>
    obtain ⟨size, lo, hi⟩ := p
    simp only [hf] at h ⊢
    have hs := first_spec _ _ _ _ hf
    by_cases hl : (si :: t).length < size
    · rw [if_pos hl] at h
      exact absurd h (by simp)
    · simp only [hl, if_false] at h ⊢
      match t, h with
      | [], k0 => simp at k0
      | c1 :: t1, k0 =>
        by_cases h1 : c1.val < lo ∨ hi < c1.val
        · simp [h1] at k0
        · simp only [h1, if_false] at k0 ⊢
          have hc1 : lo ≤ c1.val ∧ c1.val ≤ hi := by omega
          rcases hs with ⟨rfl, h0, h0u, rfl, rfl⟩ | ⟨rfl, h0, h0u, hlo, hhi, hE0, hED⟩
            | ⟨rfl, h0, h0u, hlo, hhi, hF0, hF4⟩
          · simp only [if_true, le_refl] at k0 ⊢
            refine ⟨_, _, rfl, le_refl _, k0, ?_⟩
            rw [EncodeRune_two si c1 h0 h0u hc1.1 hc1.2]
            rfl
          · simp only [show ¬ (3 ≤ 2) by omega, show ¬ (3 = 2) by omega, if_false] at k0 ⊢
            match t1, k0 with
            | [], k1 => simp at k1
            | c2 :: t2, k1 =>
              by_cases h2 : c2.val < 128 ∨ 191 < c2.val
              · simp [h2] at k1
              · simp only [h2, if_false, if_true, le_refl] at k1 ⊢
                refine ⟨_, _, rfl, by omega, k1, ?_⟩
                rw [EncodeRune_three si c1 c2 h0 h0u (by omega) (by omega) (by omega)
                  (by omega) (by omega) (by omega)]
                rfl
          · simp only [show ¬ (4 ≤ 2) by omega, show ¬ (4 = 2) by omega,
              show ¬ (4 ≤ 3) by omega, show ¬ (4 = 3) by omega, if_false] at k0 ⊢
            match t1, k0 with
            | [], k1 => simp at k1
            | c2 :: t2, k1 =>
              by_cases h2 : c2.val < 128 ∨ 191 < c2.val
              · simp [h2] at k1
              · simp only [h2, if_false] at k1 ⊢
                match t2, k1 with
                | [], k2 => simp at k2
                | c3 :: t3, k2 =>
                  by_cases h3 : c3.val < 128 ∨ 191 < c3.val
                  · simp [h3] at k2
                  · simp only [h3, if_false] at k2 ⊢
                    refine ⟨_, _, rfl, by omega, k2, ?_⟩
                    rw [EncodeRune_four si c1 c2 c3 h0 h0u (by omega) (by omega) (by omega)
                      (by omega) (by omega) (by omega) (by omega) (by omega)]
                    rfl

theorem encodeChars_jsonCharsLoop (fuel : Nat) : ∀ s : GoString, validLoop fuel s = true →
    encodeChars (jsonCharsLoop fuel s) = s := by
  induction fuel with
  | zero =>
    intro s h
    cases s with
    | nil => rfl
    | cons b t => simp [validLoop] at h
  | succ fuel ih =>
    intro s h
    match s with
    | [] => rfl
    | si :: t =>
      by_cases hA : si.val < 0x80
      · simp only [validLoop, hA, if_true] at h
        simp only [jsonCharsLoop, hA, if_true, encodeChars, ih t h, EncodeRune_one si hA]
        rfl
      · obtain ⟨c, n, hd, hn, hv, he⟩ := valid_step fuel si t hA h
        have hne : ¬ (c = RuneError ∧ n = 1) := by omega
        simp only [jsonCharsLoop, hA, if_false, hd, hne, encodeChars, ih _ hv]
        exact he

/-- A valid UTF-8 string survives being written as a JSON string and read back. -/
theorem goString_jsonString (s : GoString) (h : ValidString s = true) :
    goString (jsonString s) = s :=
  encodeChars_jsonCharsLoop s.length s h

theorem DecodeRuneInString_width_pos (b : Byte) (t : GoString) :
    1 ≤ (DecodeRuneInString (b :: t)).2 := by
  unfold DecodeRuneInString
  repeat' split
  all_goals simp_all

theorem jsonCharsLoop_fuel_eq (fuel1 : Nat) : ∀ (fuel2 : Nat) (s : GoString),
    s.length ≤ fuel1 → s.length ≤ fuel2 → jsonCharsLoop fuel1 s = jsonCharsLoop fuel2 s := by
  induction fuel1 with
  | zero =>
    intro fuel2 s h1 _
    have hs : s = [] := List.eq_nil_of_length_eq_zero (by omega)
    subst hs
    cases fuel2 <;> rfl
  | succ fuel1 ih =>
    intro fuel2 s h1 h2
    match s, fuel2, h1, h2 with
    | [], fuel2, _, _ => cases fuel2 <;> rfl
    | b :: t, fuel2 + 1, h1, h2 =>
      have ht1 : t.length ≤ fuel1 := by simpa using h1
      have ht2 : t.length ≤ fuel2 := by simpa using h2
      have hw := DecodeRuneInString_width_pos b t
      have hd : ((b :: t).drop (DecodeRuneInString (b :: t)).2).length ≤ t.length := by
        simp only [List.length_drop, List.length_cons]
        omega
      simp only [jsonCharsLoop]
      rw [ih fuel2 t ht1 ht2, ih fuel2 _ (by omega) (by omega)]

/-- Fuel beyond the length of the string does not change what the JSON string loop
writes. -/
theorem jsonCharsLoop_fuel (fuel : Nat) (s : GoString) (h : s.length ≤ fuel) :
    jsonCharsLoop fuel s = jsonCharsLoop s.length s :=
  jsonCharsLoop_fuel_eq fuel s.length s h (Nat.le_refl _)

theorem validLoop_fuel_eq (fuel1 : Nat) : ∀ (fuel2 : Nat) (s : GoString),
    s.length ≤ fuel1 → s.length ≤ fuel2 → validLoop fuel1 s = validLoop fuel2 s := by
  induction fuel1 with
  | zero =>
    intro fuel2 s h1 _
    have hs : s = [] := List.eq_nil_of_length_eq_zero (by omega)
    subst hs
    cases fuel2 <;> rfl
  | succ fuel1 ih =>
    intro fuel2 s h1 h2
    match s, fuel2, h1, h2 with
    | [], fuel2, _, _ => cases fuel2 <;> rfl
    | b :: t, fuel2 + 1, h1, h2 =>
      have ht1 : t.length ≤ fuel1 := by simpa using h1
      have ht2 : t.length ≤ fuel2 := by simpa using h2
      simp only [validLoop]
      rw [ih fuel2 t ht1 ht2]
      match t, ht1, ht2 with
      | [], _, _ => rfl
      | c1 :: t1, ht1, ht2 =>
        have k1 : t1.length ≤ fuel1 := by simp at ht1; omega
        have k2 : t1.length ≤ fuel2 := by simp at ht2; omega
        simp only []
        rw [ih fuel2 t1 k1 k2]
        match t1, k1, k2 with
        | [], _, _ => rfl
        | c2 :: t2, k1, k2 =>
          have m1 : t2.length ≤ fuel1 := by simp at k1; omega
          have m2 : t2.length ≤ fuel2 := by simp at k2; omega
          simp only []
          rw [ih fuel2 t2 m1 m2]
          match t2, m1, m2 with
          | [], _, _ => rfl
          | c3 :: t3, m1, m2 =>
            have n1 : t3.length ≤ fuel1 := by simp at m1; omega
            have n2 : t3.length ≤ fuel2 := by simp at m2; omega
            simp only []
            rw [ih fuel2 t3 n1 n2]

/-- Fuel beyond the length of the string does not change the verdict of the validity
loop. -/
theorem validLoop_fuel (fuel : Nat) (s : GoString) (h : s.length ≤ fuel) :
    validLoop fuel s = ValidString s :=
  validLoop_fuel_eq fuel s.length s h (Nat.le_refl _)

theorem first_two (n : Nat) (h : 0xC2 ≤ n) (hu : n < 0xE0) : first n = some (2, 0x80, 0xBF) := by
  unfold first
  rw [if_neg (by omega), if_pos hu]

theorem first_three (n : Nat) (h : 0xE0 ≤ n) (hu : n < 0xF0) :
    first n = some (3, if n = 0xE0 then 0xA0 else 0x80, if n = 0xED then 0x9F else 0xBF) := by
  unfold first
  rw [if_neg (by omega), if_neg (by omega)]
  by_cases h1 : n = 0xE0
  · simp [h1]
  · by_cases h2 : n = 0xED
    · simp [h2]
    · simp [h1, h2, hu]

theorem first_four (n : Nat) (h : 0xF0 ≤ n) (hu : n ≤ 0xF4) :
    first n = some (4, if n = 0xF0 then 0x90 else 0x80, if n = 0xF4 then 0x8F else 0xBF) := by
  unfold first
  rw [if_neg (by omega), if_neg (by omega), if_neg (by omega), if_neg (by omega),
    if_neg (by omega)]
  by_cases h1 : n = 0xF0
  · simp [h1]
  · by_cases h2 : n = 0xF4
    · simp [h2]
    · have h3 : n < 0xF4 := by omega
      simp [h1, h2, h3]

theorem byte_val (n : Nat) (h : n < 256) : (byte n).val = n := by
  simp [byte]
  omega

theorem validLoop_EncodeRune (fuel : Nat) (c : Char) (rest : GoString)
    (h : validLoop fuel rest = true) : validLoop (fuel + 1) (EncodeRune c ++ rest) = true := by
  have hv : c.toNat < 0xD800 ∨ (0xDFFF < c.toNat ∧ c.toNat < 0x110000) := c.valid
  unfold EncodeRune
  simp only []
  by_cases h1 : c.toNat < 0x80
  · rw [if_pos h1]
    have e0 := byte_val c.toNat (by omega)
    simp only [List.singleton_append, validLoop, e0, h1, if_true, h]
  · rw [if_neg h1]
    by_cases h2 : c.toNat < 0x800
    · rw [if_pos h2]
      have e0 := byte_val (0xC0 + c.toNat / 64) (by omega)
      have e1 := byte_val (0x80 + c.toNat % 64) (by omega)
      have hf := first_two (0xC0 + c.toNat / 64) (by omega) (by omega)
      simp only [List.cons_append, List.nil_append, validLoop, e0, e1, hf, List.length_cons]
      rw [if_neg (by omega), if_neg (by omega), if_neg (by omega), if_pos trivial]
      exact h
    · rw [if_neg h2]
      by_cases h3 : c.toNat < 0x10000
      · rw [if_pos h3]
        have e0 := byte_val (0xE0 + c.toNat / 4096) (by omega)
        have e1 := byte_val (0x80 + c.toNat / 64 % 64) (by omega)
        have e2 := byte_val (0x80 + c.toNat % 64) (by omega)
        have hf := first_three (0xE0 + c.toNat / 4096) (by omega) (by omega)
        simp only [List.cons_append, List.nil_append, validLoop, e0, e1, e2, hf,
          List.length_cons]
        rw [if_neg (by omega), if_neg (by omega), if_neg (by split_ifs <;> omega),
          if_neg (by omega), if_neg (by omega), if_pos trivial]
        exact h
      · rw [if_neg h3]
        have e0 := byte_val (0xF0 + c.toNat / 262144) (by omega)
        have e1 := byte_val (0x80 + c.toNat / 4096 % 64) (by omega)
        have e2 := byte_val (0x80 + c.toNat / 64 % 64) (by omega)
        have e3 := byte_val (0x80 + c.toNat % 64) (by omega)
        have hf := first_four (0xF0 + c.toNat / 262144) (by omega) (by omega)
        simp only [List.cons_append, List.nil_append, validLoop, e0, e1, e2, e3, hf,
          List.length_cons]
        rw [if_neg (by omega), if_neg (by omega), if_neg (by split_ifs <;> omega),
          if_neg (by omega), if_neg (by omega), if_neg (by omega), if_neg (by omega)]
        exact h

theorem validLoop_encodeChars (cs : List Char) : ∀ fuel, cs.length ≤ fuel →
    validLoop fuel (encodeChars cs) = true := by
  induction cs with
  | nil =>
    intro fuel _
    cases fuel <;> rfl
  | cons c cs ih =>
    intro fuel hf
    match fuel, hf with
    | fuel + 1, hf =>
      exact validLoop_EncodeRune fuel c _ (ih fuel (by simpa using hf))

theorem length_le_encodeChars (cs : List Char) : cs.length ≤ (encodeChars cs).length := by
  induction cs with
  | nil => exact Nat.le_refl _
  | cons c cs ih =>
    have h1 : 1 ≤ (EncodeRune c).length := by
      unfold EncodeRune
      simp only []
      split_ifs <;> simp
    simp only [encodeChars, List.length_append, List.length_cons]
    omega

theorem ValidString_encodeChars (cs : List Char) : ValidString (encodeChars cs) = true :=
  validLoop_encodeChars cs _ (length_le_encodeChars cs)

theorem ValidString_iff_roundtrip (s : GoString) :
    ValidString s = true ↔ goString (jsonString s) = s := by
  constructor
  · exact goString_jsonString s
  · intro h
    rw [← h]
    exact ValidString_encodeChars _

/-! ## Lemmas on the struct codec -/

theorem lookupField_tag (f : ContainerField) : lookupField f.tag = some f := by
  cases f <;> decide

theorem decodeMembers_append_ok (a b : List (String × Json)) (c c1 : Container)
    (h : decodeMembers a c = (c1, none)) : decodeMembers (a ++ b) c = decodeMembers b c1 := by
  induction a generalizing c with
  | nil =>
    simp only [decodeMembers, Prod.mk.injEq, and_true] at h
    subst h
    rfl
  | cons m a ih =>
    obtain ⟨key, v⟩ := m
    simp only [decodeMembers, Prod.mk.injEq] at h
    obtain ⟨h1, h2⟩ := h
    cases hm : (decodeMember c key v).2 with
    | some e => simp [hm] at h2
    | none =>
      simp only [hm] at h2
      have hrest : decodeMembers a (decodeMember c key v).1 = (c1, none) := by
        rw [← h1, ← h2]
      have hi := ih _ hrest
      simp only [List.cons_append, decodeMembers, hm]
      exact hi

theorem decodeMembers_stringMember (f : ContainerField) (v : GoString) (acc acc1 : Container)
    (hset : acc.setString f (goString (jsonString v)) = some acc1)
    (hempty : v = [] → acc1 = acc) :
    decodeMembers (stringMember f.tag v) acc = (acc1, none) := by
  unfold stringMember
  by_cases h : v = []
  · rw [if_pos h, hempty h]
    rfl
  · rw [if_neg h]
    simp only [decodeMembers, decodeMember, lookupField_tag, hset]

theorem decodeMembers_boolMember (v : Bool) (acc acc1 : Container)
    (hset : acc.setBool ContainerField.Provisioned v = some acc1)
    (hempty : v = false → acc1 = acc) :
    decodeMembers (boolMember ContainerField.Provisioned.tag v) acc = (acc1, none) := by
  unfold boolMember
  by_cases h : v = false
  · rw [if_pos h, hempty h]
    rfl
  · rw [if_neg h]
    simp only [decodeMembers, decodeMember, lookupField_tag, hset]

theorem Unmarshal_Marshal (c : Container) :
    Container.Unmarshal c.Marshal default = (c.toValidUTF8, none) := by
  obtain ⟨a1, a2, a3, a4, a5, a6, a7, a8⟩ := c
  let g : GoString → GoString := fun v => goString (jsonString v)
  have e1 := decodeMembers_stringMember ContainerField.ID a1 default
    ⟨g a1, [], [], [], [], [], [], false⟩ rfl (fun h => by subst h; rfl)
  have e2 := decodeMembers_stringMember ContainerField.ProviderName a2
    ⟨g a1, [], [], [], [], [], [], false⟩ ⟨g a1, g a2, [], [], [], [], [], false⟩ rfl
    (fun h => by subst h; rfl)
  have e3 := decodeMembers_stringMember ContainerField.AtlasCidrBlock a3
    ⟨g a1, g a2, [], [], [], [], [], false⟩ ⟨g a1, g a2, g a3, [], [], [], [], false⟩ rfl
    (fun h => by subst h; rfl)
  have e4 := decodeMembers_stringMember ContainerField.RegionName a4
    ⟨g a1, g a2, g a3, [], [], [], [], false⟩ ⟨g a1, g a2, g a3, g a4, [], [], [], false⟩ rfl
    (fun h => by subst h; rfl)
  have e5 := decodeMembers_stringMember ContainerField.VpcID a5
    ⟨g a1, g a2, g a3, g a4, [], [], [], false⟩
    ⟨g a1, g a2, g a3, g a4, g a5, [], [], false⟩ rfl (fun h => by subst h; rfl)
  have e6 := decodeMembers_stringMember ContainerField.GcpProjectID a6
    ⟨g a1, g a2, g a3, g a4, g a5, [], [], false⟩
    ⟨g a1, g a2, g a3, g a4, g a5, g a6, [], false⟩ rfl (fun h => by subst h; rfl)
  have e7 := decodeMembers_stringMember ContainerField.NetworkName a7
    ⟨g a1, g a2, g a3, g a4, g a5, g a6, [], false⟩
    ⟨g a1, g a2, g a3, g a4, g a5, g a6, g a7, false⟩ rfl (fun h => by subst h; rfl)
  have e8 := decodeMembers_boolMember a8
    ⟨g a1, g a2, g a3, g a4, g a5, g a6, g a7, false⟩
    ⟨g a1, g a2, g a3, g a4, g a5, g a6, g a7, a8⟩ rfl (fun h => by subst h; rfl)
  simp only [ContainerField.tag] at e1 e2 e3 e4 e5 e6 e7 e8
  simp only [Container.Marshal, Container.Unmarshal, List.append_assoc]
  rw [decodeMembers_append_ok _ _ _ _ e1, decodeMembers_append_ok _ _ _ _ e2,
    decodeMembers_append_ok _ _ _ _ e3, decodeMembers_append_ok _ _ _ _ e4,
    decodeMembers_append_ok _ _ _ _ e5, decodeMembers_append_ok _ _ _ _ e6,
    decodeMembers_append_ok _ _ _ _ e7, e8]
  rfl

theorem toValidUTF8_eq_iff (c : Container) : c.toValidUTF8 = c ↔ c.ValidUTF8 = true := by
  obtain ⟨a1, a2, a3, a4, a5, a6, a7, a8⟩ := c
  simp only [Container.toValidUTF8, Container.ValidUTF8, Container.mk.injEq,
    Bool.and_eq_true, ValidString_iff_roundtrip, and_true, and_assoc]

theorem Unmarshal_Marshal_eq_iff (c : Container) :
    Container.Unmarshal c.Marshal default = (c, none) ↔ c.ValidUTF8 = true := by
  rw [Unmarshal_Marshal, ← toValidUTF8_eq_iff]
  simp

/-! ## Lemmas on the formatted paths -/

theorem Sprintf_list (gid providerName : GoString) :
    Sprintf (lit "%s/containers?providerName=%s") [gid, providerName]
      = gid ++ lit "/containers?providerName=" ++ providerName := by
  simp [Sprintf, lit, encodeChars, EncodeRune, byte]

theorem Sprintf_item (gid id : GoString) :
    Sprintf (lit "%s/containers/%s") [gid, id] = gid ++ lit "/containers/" ++ id := by
  simp [Sprintf, lit, encodeChars, EncodeRune, byte]

theorem Sprintf_create (gid : GoString) :
    Sprintf (lit "%s/containers") [gid] = gid ++ lit "/containers" := by
  simp [Sprintf, lit, encodeChars, EncodeRune, byte]

theorem Sprintf_privateIpMode (gid : GoString) :
    Sprintf (lit "%s/privateIpMode") [gid] = gid ++ lit "/privateIpMode" := by
  simp [Sprintf, lit, encodeChars, EncodeRune, byte]

/-! ## Lemmas on the requests the operations send -/

theorem privateIPMode_request (p : PrivateIPModeService) (gid : GoString) :
    ((p.sling.New.Patch (Sprintf (lit "%s/privateIpMode") [gid])).BodyJSON
      (Payload.privateIPMode { Enabled := false })).Request
      = ⟨Method.PATCH, p.sling.paths ++ [gid ++ lit "/privateIpMode"],
          some (Payload.privateIPMode { Enabled := false })⟩ := by
  simp only [Sprintf_privateIpMode, Sling.Request, Sling.BodyJSON, Sling.Patch, Sling.Path,
    Sling.New]

theorem relevantError_reconciles {α : Type} (o : Received α) :
    Reconciles o (relevantError o.err o.failureV) := by
  refine ⟨?_, ?_, ?_⟩
  · intro e he
    simp only [he, relevantError]
  · intro he hne
    simp only [he, relevantError, if_neg hne]
  · intro he hz
    simp only [he, relevantError, hz, if_true]

theorem mem_keys_stringMember (key name : String) (v : GoString) :
    key ∈ (stringMember name v).map Prod.fst ↔ key = name ∧ v ≠ [] := by
  unfold stringMember
  by_cases h : v = [] <;> simp [h]

theorem mem_keys_boolMember (key name : String) (v : Bool) :
    key ∈ (boolMember name v).map Prod.fst ↔ key = name ∧ v = true := by
  unfold boolMember
  cases v <;> simp

theorem id_mem_keys_Marshal (k : Container) : "id" ∈ k.Marshal.keys ↔ k.ID ≠ [] := by
  simp only [Container.Marshal, Json.keys, List.map_append, List.mem_append,
    mem_keys_stringMember, mem_keys_boolMember]
  simp

/-! ## Properties of the specification, checked on the code -/

/-- C1, evaluated on the code: for the project `g1`, the one request `EnablePrivateIPMode`
sends is a PATCH of `g1/privateIpMode` whose `PrivateIPMode` body has the enabled flag
false, not true. -/
theorem EnablePrivateIPMode_sends_false :
    ((newPrivateIPModeService baseSling).EnablePrivateIPMode (lit "g1")
        (idleExchange PrivateIPMode) []).2
      = [⟨Method.PATCH, [lit "groups/", lit "g1/privateIpMode"],
          some (Payload.privateIPMode { Enabled := false })⟩] := by
  decide

/-- C2: for every project id, `DisablePrivateIPMode` sends exactly one request, and it
carries a `PrivateIPMode` body whose enabled flag is false. -/
theorem DisablePrivateIPMode_sends_false (p : PrivateIPModeService) (gid : GoString)
    (http : Exchange PrivateIPMode) (sent : Slice HttpRequest) :
    ∃ req v, (p.DisablePrivateIPMode gid http sent).2 = sent ++ [req]
      ∧ req.body = some (Payload.privateIPMode v) ∧ v.Enabled = false :=
  ⟨_, _, rfl, rfl, rfl⟩

/-- C3: each of the seven operations sends one request and returns, as its error, the
reconciliation of what that one HTTP call left behind (starting from zero-valued receivers):
the transport error when present; otherwise an error built from the decoded error payload
when that is non-zero; otherwise nil. In particular a nil transport error with a zero
payload gives a nil error (the third clause of `Reconciles`). -/
theorem operations_reconcile_errors (c : ContainerService) (p : PrivateIPModeService)
    (gid id providerName : GoString) (containerParams : Option Container)
    (httpList : Exchange containerListResponse) (httpContainer : Exchange Container)
    (httpMode : Exchange PrivateIPMode) (sent : Slice HttpRequest) :
    (∃ req, (c.List gid providerName httpList sent).2 = sent ++ [req]
      ∧ Reconciles (httpList req default default)
          (c.List gid providerName httpList sent).1.2.2)
    ∧ (∃ req, (c.Get gid id httpContainer sent).2 = sent ++ [req]
      ∧ Reconciles (httpContainer req default default)
          (c.Get gid id httpContainer sent).1.2.2)
    ∧ (∃ req, (c.Create gid containerParams httpContainer sent).2 = sent ++ [req]
      ∧ Reconciles (httpContainer req default default)
          (c.Create gid containerParams httpContainer sent).1.2.2)
    ∧ (∃ req, (c.Update gid id containerParams httpContainer sent).2 = sent ++ [req]
      ∧ Reconciles (httpContainer req default default)
          (c.Update gid id containerParams httpContainer sent).1.2.2)
    ∧ (∃ req, (c.Delete gid id httpContainer sent).2 = sent ++ [req]
      ∧ Reconciles (httpContainer req default default)
          (c.Delete gid id httpContainer sent).1.2)
    ∧ (∃ req, (p.EnablePrivateIPMode gid httpMode sent).2 = sent ++ [req]
      ∧ Reconciles (httpMode req default default)
          (p.EnablePrivateIPMode gid httpMode sent).1.2)
    ∧ (∃ req, (p.DisablePrivateIPMode gid httpMode sent).2 = sent ++ [req]
      ∧ Reconciles (httpMode req default default)
          (p.DisablePrivateIPMode gid httpMode sent).1.2) :=
  ⟨⟨_, rfl, relevantError_reconciles _⟩, ⟨_, rfl, relevantError_reconciles _⟩,
    ⟨_, rfl, relevantError_reconciles _⟩, ⟨_, rfl, relevantError_reconciles _⟩,
    ⟨_, rfl, relevantError_reconciles _⟩, ⟨_, rfl, relevantError_reconciles _⟩,
    ⟨_, rfl, relevantError_reconciles _⟩⟩

/-- C4, as stated, fails: the container whose id is the single byte 0xFF (not valid UTF-8)
is serialized with the id coerced to U+FFFD, and deserializing gives back a container whose
id is the three bytes EF BF BD, not the container serialized. -/
theorem Container_roundtrip_fails_on_invalid_utf8 :
    Container.Unmarshal (Container.Marshal ⟨[byte 0xFF], [], [], [], [], [], [], false⟩) default
      = (⟨[byte 0xEF, byte 0xBF, byte 0xBD], [], [], [], [], [], [], false⟩, none)
    ∧ (⟨[byte 0xEF, byte 0xBF, byte 0xBD], [], [], [], [], [], [], false⟩ : Container)
      ≠ ⟨[byte 0xFF], [], [], [], [], [], [], false⟩ := by
  decide

/-- C4, amended: under the JSON field tags of `Container`, serializing a container holds a
field exactly when it is non-empty (so every empty field is omitted, and the container with
all fields empty serializes to the empty JSON object); deserializing the empty JSON object
into a fresh container yields the zero-valued container without error; and deserializing
the serialization of a container into a fresh container gives it back, without error,
exactly when every string field of the container is valid UTF-8. -/
theorem Container_json_contract (c : Container) :
    (("id" ∈ c.Marshal.keys ↔ c.ID ≠ [])
      ∧ ("providerName" ∈ c.Marshal.keys ↔ c.ProviderName ≠ [])
      ∧ ("atlasCidrBlock" ∈ c.Marshal.keys ↔ c.AtlasCidrBlock ≠ [])
      ∧ ("regionName" ∈ c.Marshal.keys ↔ c.RegionName ≠ [])
      ∧ ("vpcId" ∈ c.Marshal.keys ↔ c.VpcID ≠ [])
      ∧ ("gcpProjectId" ∈ c.Marshal.keys ↔ c.GcpProjectID ≠ [])
      ∧ ("networkName" ∈ c.Marshal.keys ↔ c.NetworkName ≠ [])
      ∧ ("provisioned" ∈ c.Marshal.keys ↔ c.Provisioned = true)
      ∧ (∀ key, key ∈ c.Marshal.keys → key ∈ containerFields.map ContainerField.tag))
    ∧ Container.Marshal default = Json.obj []
    ∧ Container.Unmarshal (Json.obj []) default = (default, none)
    ∧ (Container.Unmarshal c.Marshal default = (c, none) ↔ c.ValidUTF8 = true) := by
  refine ⟨?_, rfl, rfl, Unmarshal_Marshal_eq_iff c⟩
  simp only [Container.Marshal, Json.keys, List.map_append, List.mem_append,
    mem_keys_stringMember, mem_keys_boolMember, containerFields, ContainerField.tag,
    List.map_cons, List.map_nil, List.mem_cons, List.mem_singleton]
  refine ⟨?_, ?_, ?_, ?_, ?_, ?_, ?_, ?_, ?_⟩ <;> simp
  intro key h
  rcases h with ((((((h | h) | h) | h) | h) | h) | h) | h <;> simp [h.1]

/-- C4, amended, at a concrete container with non-ASCII text: it is valid UTF-8, its
serialization holds exactly the two non-empty fields, and it survives the round trip. -/
theorem Container_json_contract_witness :
    (⟨lit "c-é", [], [], lit "eu-central-1 €", [], [], [], false⟩ : Container).ValidUTF8 = true
    ∧ (Container.Marshal ⟨lit "c-é", [], [], lit "eu-central-1 €", [], [], [], false⟩).keys
      = ["id", "regionName"]
    ∧ Container.Unmarshal
        (Container.Marshal ⟨lit "c-é", [], [], lit "eu-central-1 €", [], [], [], false⟩) default
      = (⟨lit "c-é", [], [], lit "eu-central-1 €", [], [], [], false⟩, none) :=
  ⟨by decide, by decide,
    (Container_json_contract ⟨lit "c-é", [], [], lit "eu-central-1 €", [], [], [], false⟩).2.2.2.2
      (by decide)⟩

/-- C5: on a service whose builder carries no body, `List` sends exactly one request: a GET
whose relative path is `gid`, then `/containers?providerName=`, then `providerName`, both
inserted byte for byte, and with no body. -/
theorem List_sends_one_get (c : ContainerService) (gid providerName : GoString)
    (http : Exchange containerListResponse) (sent : Slice HttpRequest)
    (hbody : c.sling.body = none) :
    (c.List gid providerName http sent).2
      = sent ++ [⟨Method.GET,
          c.sling.paths ++ [gid ++ lit "/containers?providerName=" ++ providerName], none⟩] := by
  simp only [ContainerService.List, Sling.Receive, Sling.Request, Sling.Get, Sling.Path,
    Sling.New, Sprintf_list, hbody]

/-- C5 at a concrete call: the service scoped to `groups/`, project `g1`, provider `AWS`. -/
theorem List_sends_one_get_witness :
    (newContainerService baseSling).sling.body = none
    ∧ ((newContainerService baseSling).List (lit "g1") (lit "AWS")
        (idleExchange containerListResponse) []).2
      = [⟨Method.GET, [lit "groups/", lit "g1/containers?providerName=AWS"], none⟩] :=
  ⟨rfl, List_sends_one_get (newContainerService baseSling) (lit "g1") (lit "AWS")
    (idleExchange containerListResponse) [] rfl⟩

/-- C6: on a service whose builder carries no body, `Get`, `Update` and `Delete` each send
one request to the relative path `gid`, then `/containers/`, then `id`, with methods GET,
PATCH and DELETE; `Create` sends one POST to `gid`, then `/containers`; `Create` and `Update`
carry `containerParams` as the JSON body, `Get` and `Delete` carry no body. -/
theorem item_requests (c : ContainerService) (gid id : GoString)
    (containerParams : Option Container) (http : Exchange Container)
    (sent : Slice HttpRequest) (hbody : c.sling.body = none) :
    (c.Get gid id http sent).2
      = sent ++ [⟨Method.GET, c.sling.paths ++ [gid ++ lit "/containers/" ++ id], none⟩]
    ∧ (c.Update gid id containerParams http sent).2
      = sent ++ [⟨Method.PATCH, c.sling.paths ++ [gid ++ lit "/containers/" ++ id],
          some (Payload.container containerParams)⟩]
    ∧ (c.Delete gid id http sent).2
      = sent ++ [⟨Method.DELETE, c.sling.paths ++ [gid ++ lit "/containers/" ++ id], none⟩]
    ∧ (c.Create gid containerParams http sent).2
      = sent ++ [⟨Method.POST, c.sling.paths ++ [gid ++ lit "/containers"],
          some (Payload.container containerParams)⟩]
    ∧ (⟨Method.PATCH, c.sling.paths ++ [gid ++ lit "/containers/" ++ id],
          some (Payload.container containerParams)⟩ : HttpRequest).wireBody
        = some (Payload.Marshal (Payload.container containerParams))
    ∧ (⟨Method.POST, c.sling.paths ++ [gid ++ lit "/containers"],
          some (Payload.container containerParams)⟩ : HttpRequest).wireBody
        = some (Payload.Marshal (Payload.container containerParams)) := by
  refine ⟨?_, ?_, ?_, ?_, rfl, rfl⟩
  · simp only [ContainerService.Get, Sling.Receive, Sling.Request, Sling.Get, Sling.Path,
      Sling.New, Sprintf_item, hbody]
  · simp only [ContainerService.Update, Sling.Receive, Sling.Request, Sling.Patch,
      Sling.Path, Sling.New, Sling.BodyJSON, Sprintf_item]
  · simp only [ContainerService.Delete, Sling.Receive, Sling.Request, Sling.Delete,
      Sling.Path, Sling.New, Sprintf_item, hbody]
  · simp only [ContainerService.Create, Sling.Receive, Sling.Request, Sling.Post,
      Sling.Path, Sling.New, Sling.BodyJSON, Sprintf_create]

/-- C6 at concrete calls: container `c9` of project `g1`, with parameters naming the
provider `AWS`. -/
theorem item_requests_witness :
    (newContainerService baseSling).sling.body = none
    ∧ ((newContainerService baseSling).Get (lit "g1") (lit "c9")
        (idleExchange Container) []).2
      = [⟨Method.GET, [lit "groups/", lit "g1/containers/c9"], none⟩]
    ∧ ((newContainerService baseSling).Update (lit "g1") (lit "c9")
        (some ⟨[], lit "AWS", [], [], [], [], [], false⟩) (idleExchange Container) []).2
      = [⟨Method.PATCH, [lit "groups/", lit "g1/containers/c9"],
          some (Payload.container (some ⟨[], lit "AWS", [], [], [], [], [], false⟩))⟩]
    ∧ ((newContainerService baseSling).Delete (lit "g1") (lit "c9")
        (idleExchange Container) []).2
      = [⟨Method.DELETE, [lit "groups/", lit "g1/containers/c9"], none⟩]
    ∧ ((newContainerService baseSling).Create (lit "g1")
        (some ⟨[], lit "AWS", [], [], [], [], [], false⟩) (idleExchange Container) []).2
      = [⟨Method.POST, [lit "groups/", lit "g1/containers"],
          some (Payload.container (some ⟨[], lit "AWS", [], [], [], [], [], false⟩))⟩] :=
  have h := item_requests (newContainerService baseSling) (lit "g1") (lit "c9")
    (some ⟨[], lit "AWS", [], [], [], [], [], false⟩) (idleExchange Container) [] rfl
  ⟨rfl, h.1, h.2.1, h.2.2.1, h.2.2.2.1⟩

/-- C7, as stated, fails: `Create` for project `g1` with parameters whose ID is `c1` sends
one request whose JSON body holds the key `id`. -/
theorem Create_body_holds_given_id :
    ((newContainerService baseSling).Create (lit "g1")
        (some ⟨lit "c1", lit "AWS", [], [], [], [], [], false⟩)
        (idleExchange Container) []).2.map (fun r => r.wireBody.map Json.keys)
      = [some ["id", "providerName"]] := by
  decide

/-- C7, amended: the body of the one request `Create` sends is the serialization of
`containerParams` as passed in, so it holds an `id` field exactly when `containerParams`
is non-nil and its ID is non-empty; the creation request omits the identifier whenever
`containerParams` carries none. -/
theorem Create_body_id_iff (c : ContainerService) (gid : GoString)
    (containerParams : Option Container) (http : Exchange Container)
    (sent : Slice HttpRequest) :
    ∃ req body, (c.Create gid containerParams http sent).2 = sent ++ [req]
      ∧ req.wireBody = some body
      ∧ body = Payload.Marshal (Payload.container containerParams)
      ∧ ("id" ∈ body.keys ↔ ∃ k, containerParams = some k ∧ k.ID ≠ []) := by
  refine ⟨_, _, rfl, rfl, rfl, ?_⟩
  cases containerParams with
  | none => simp [Payload.Marshal, Json.keys]
  | some k => simp [Payload.Marshal, id_mem_keys_Marshal]

/-- C8: the sequence `List` returns is the results sequence that the one HTTP call decoded
into the (zero-valued) list envelope, unchanged; it is empty when the envelope has no
results, and its length is the decoded total count whenever the envelope's results are as
many as its total count. -/
theorem List_returns_decoded_results (c : ContainerService) (gid providerName : GoString)
    (http : Exchange containerListResponse) (sent : Slice HttpRequest) :
    ∃ req, (c.List gid providerName http sent).2 = sent ++ [req]
      ∧ (c.List gid providerName http sent).1.1 = (http req default default).successV.Results
      ∧ ((http req default default).successV.Results = []
          → (c.List gid providerName http sent).1.1 = [])
      ∧ (((http req default default).successV.Results.length : Int)
            = (http req default default).successV.TotalCount
          → (((c.List gid providerName http sent).1.1).length : Int)
            = (http req default default).successV.TotalCount) :=
  ⟨_, rfl, rfl, fun h => h, fun h => h⟩

/-- C9: for every project id, `EnablePrivateIPMode` and `DisablePrivateIPMode` each send the
same single request, a PATCH of the relative path `gid` then `/privateIpMode` with a
`PrivateIPMode` body whose `Enabled` is false, and return the same results: the request
does not tell the two operations apart. -/
theorem Enable_Disable_same_request (p : PrivateIPModeService) (gid : GoString)
    (http : Exchange PrivateIPMode) (sent : Slice HttpRequest) :
    (p.EnablePrivateIPMode gid http sent).2
      = sent ++ [⟨Method.PATCH, p.sling.paths ++ [gid ++ lit "/privateIpMode"],
          some (Payload.privateIPMode { Enabled := false })⟩]
    ∧ (p.DisablePrivateIPMode gid http sent).2
      = sent ++ [⟨Method.PATCH, p.sling.paths ++ [gid ++ lit "/privateIpMode"],
          some (Payload.privateIPMode { Enabled := false })⟩]
    ∧ p.EnablePrivateIPMode gid http sent = p.DisablePrivateIPMode gid http sent := by
  refine ⟨?_, ?_, rfl⟩
  · simp only [PrivateIPModeService.EnablePrivateIPMode, Sling.Receive,
      privateIPMode_request]
  · simp only [PrivateIPModeService.DisablePrivateIPMode, Sling.Receive,
      privateIPMode_request]

/-- C10: `PrivateIPMode` is written under the key `enabled`, omitted when false: with
`Enabled` true it is the object holding `enabled: true`, with `Enabled` false it is the
empty JSON object; so the body on the wire of the one request `DisablePrivateIPMode` sends
is the empty object and has no `enabled` key. -/
theorem PrivateIPMode_omits_false (p : PrivateIPModeService) (gid : GoString)
    (http : Exchange PrivateIPMode) (sent : Slice HttpRequest) :
    PrivateIPMode.Marshal { Enabled := true } = Json.obj [("enabled", Json.bool true)]
    ∧ PrivateIPMode.Marshal { Enabled := false } = Json.obj []
    ∧ ∃ req, (p.DisablePrivateIPMode gid http sent).2 = sent ++ [req]
      ∧ req.wireBody = some (Json.obj [])
      ∧ ∀ body, req.wireBody = some body → "enabled" ∉ body.keys := by
  refine ⟨rfl, rfl, _, rfl, rfl, ?_⟩
  intro body hb
  have hw : body = Json.obj [] := by
    have h2 : some (Json.obj []) = some body := hb
    exact (Option.some.inj h2).symm
  simp [hw, Json.keys]

end Mongodbatlas
